import Mathlib

/-!
Formal model of the `air_qual_light` package (files `data.py`, `led.py`,
`cli.py`), with theorems about its AQI conversion, consensus aggregation,
sensor TTL handling, LED rendering policy and main-loop failure handling.

Numeric values are modelled as rationals (`ℚ`); Python lists as `List ℚ`;
timestamps as rational seconds since the epoch.
-/

namespace AirQual

/-! ### AQI conversion (`remap`, `calculate_aqi` in `data.py`) -/

/-- Function `remap` from `data.py`: remaps a value from one range to another. -/
def remap (value low1 high1 low2 high2 : ℚ) : ℚ :=
  low2 + (high2 - low2) * (value - low1) / (high1 - low1)

/-- Function `calculate_aqi` from `data.py`: EPA piecewise-linear PM2.5 → AQI table,
checked from the top band down; values `> 500` clamp to `500`, values `≤ 0`
pass through unchanged. -/
def calculate_aqi (pm : ℚ) : ℚ :=
  if pm > 500 then 500
  else if pm > 350.5 then remap pm 350.5 500.5 400 500
  else if pm > 250.5 then remap pm 250.5 350.5 300 400
  else if pm > 150.5 then remap pm 150.5 250.5 200 300
  else if pm > 55.5 then remap pm 55.5 150.5 150 200
  else if pm > 35.5 then remap pm 35.5 55.5 100 150
  else if pm > 12 then remap pm 12 35.5 50 100
  else if pm > 0 then remap pm 0 12 0 50
  else pm

/-! ### Consensus aggregation (`calculate_consensus` in `data.py`) -/

/-- Ascending sort, modelling the order statistics numpy derives. -/
def sortList (l : List ℚ) : List ℚ := List.insertionSort (· ≤ ·) l

/-- Model of `np.mean`: sum divided by length. -/
def npMean (l : List ℚ) : ℚ := l.sum / l.length

/-- Model of `np.median` on an already sorted list: middle element for odd length,
average of the two middle elements for even length. -/
def medianSorted (s : List ℚ) : ℚ :=
  if s.length % 2 = 1 then s.getD (s.length / 2) 0
  else (s.getD (s.length / 2 - 1) 0 + s.getD (s.length / 2) 0) / 2

/-- Model of `np.median`. -/
def npMedian (l : List ℚ) : ℚ := medianSorted (sortList l)

/-- Model of `np.percentile` with the default linear interpolation, on an already
sorted list: position `q/100 · (n−1)`, interpolating between the two
neighbouring order statistics. -/
def percentileSorted (s : List ℚ) (q : ℚ) : ℚ :=
  let pos : ℚ := q * ((s.length : ℚ) - 1) / 100
  let i : ℕ := (Int.floor pos).toNat
  s.getD i 0 + (pos - (i : ℚ)) * (s.getD (i + 1) 0 - s.getD i 0)

/-- Model of `np.percentile`. -/
def npPercentile (l : List ℚ) (q : ℚ) : ℚ := percentileSorted (sortList l) q

/-- The bound `lower_bound = q1 - 1.5 * iqr` in the IQR branch of `calculate_consensus`. -/
def iqrLowerBound (l : List ℚ) : ℚ :=
  npPercentile l 25 - 1.5 * (npPercentile l 75 - npPercentile l 25)

/-- The bound `upper_bound = q3 + 1.5 * iqr` in the IQR branch of `calculate_consensus`. -/
def iqrUpperBound (l : List ℚ) : ℚ :=
  npPercentile l 75 + 1.5 * (npPercentile l 75 - npPercentile l 25)

/-- The values kept by the IQR branch mask
`(values_array >= lower_bound) & (values_array <= upper_bound)`. -/
def iqrInliers (l : List ℚ) : List ℚ :=
  l.filter (fun x => decide (iqrLowerBound l ≤ x ∧ x ≤ iqrUpperBound l))

/-- The value `mad = np.median(np.abs(values_array - median))`. -/
def npMad (l : List ℚ) : ℚ := npMedian (l.map (fun x => |x - npMedian l|))

/-- The scores `modified_z_scores = 0.6745 * (values_array - median) / mad`. -/
def modZScore (l : List ℚ) (x : ℚ) : ℚ :=
  0.6745 * (x - npMedian l) / npMad l

/-- The values kept by the modified Z-score mask
`np.abs(modified_z_scores) < 3.5`. -/
def modZInliers (l : List ℚ) : List ℚ :=
  l.filter (fun x => decide (|modZScore l x| < 3.5))

/-- The common tail of both outlier branches: if every value is classified an
outlier (`not np.any(not_outlier)`) return the median of all values, else the
mean of the inliers. -/
def consensusFromInliers (l inliers : List ℚ) : ℚ :=
  if inliers = [] then npMedian l else npMean inliers

/-- The whole `method == 'iqr'` branch of `calculate_consensus`. -/
def iqrMethod (l : List ℚ) : ℚ := consensusFromInliers l (iqrInliers l)

/-- The whole `method == 'modified_z'` branch of `calculate_consensus`,
including the `mad == 0` early return of the median. -/
def modifiedZMethod (l : List ℚ) : ℚ :=
  if npMad l = 0 then npMedian l
  else consensusFromInliers l (modZInliers l)

/-- Function `calculate_consensus` from `data.py`: 0.0 on empty input, the single value
for one input, the median for 2–3 values, the IQR method for 4–6 values and
the modified Z-score method for 7 or more. -/
def calculate_consensus (values : List ℚ) : ℚ :=
  if values = [] then 0
  else if values.length = 1 then values.headI
  else if values.length ≤ 3 then npMedian values
  else if values.length ≤ 6 then iqrMethod values
  else modifiedZMethod values

/-! ### Sensor readings and TTL (`Sensor` in `data.py`) -/

/-- The parsed JSON payload a `Sensor` stores in `_data_dict`. -/
structure Payload where
  data_time_stamp : ℚ
  latitude : ℚ
  longitude : ℚ
  altitude : ℤ
  temperature : ℚ
  humidity : ℚ
  pressure : ℚ
  pm2_5_atm : ℚ
deriving DecidableEq

/-- The `Sensor` object: name, id, optional payload and TTL in minutes. -/
structure Sensor where
  name : String
  id : ℤ
  _data_dict : Option Payload
  sensor_ttl_min : ℤ
deriving DecidableEq

/-- The `data_time_stamp` property: the payload's capture timestamp, or the
epoch (0) when no payload is stored.  It does not run the TTL check. -/
def Sensor.data_time_stamp (s : Sensor) : ℚ :=
  match s._data_dict with
  | some p => p.data_time_stamp
  | none => 0

/-- Method `Sensor._ttl_expired`: drop the payload when it is older than
`sensor_ttl_min` minutes at time `now` (seconds). -/
def Sensor.ttl_expired (now : ℚ) (s : Sensor) : Sensor :=
  if now - s.data_time_stamp > (s.sensor_ttl_min : ℚ) * 60 then
    { s with _data_dict := none }
  else s

/-- The `location` property: TTL check, then (latitude, longitude, altitude),
or `(0.0, 0.0, 0)` without a payload. -/
def Sensor.location (now : ℚ) (s : Sensor) : ℚ × ℚ × ℤ :=
  match (s.ttl_expired now)._data_dict with
  | some p => (p.latitude, p.longitude, p.altitude)
  | none => (0, 0, 0)

/-- The `temperature` property with the default Celsius unit: TTL check, then
`(temp - 32) * 5/9`, or `None` without a payload. -/
def Sensor.temperature (now : ℚ) (s : Sensor) : Option ℚ :=
  ((s.ttl_expired now)._data_dict).map (fun p => (p.temperature - 32) * 5 / 9)

/-- The `humidity` property: TTL check, then the payload humidity. -/
def Sensor.humidity (now : ℚ) (s : Sensor) : Option ℚ :=
  ((s.ttl_expired now)._data_dict).map (fun p => p.humidity)

/-- The `pressure` property: TTL check, then the payload pressure. -/
def Sensor.pressure (now : ℚ) (s : Sensor) : Option ℚ :=
  ((s.ttl_expired now)._data_dict).map (fun p => p.pressure)

/-- The `pm2_5_atm` property: TTL check, then the payload PM2.5. -/
def Sensor.pm2_5_atm (now : ℚ) (s : Sensor) : Option ℚ :=
  ((s.ttl_expired now)._data_dict).map (fun p => p.pm2_5_atm)

/-- The `us_epa_pm2_5_aqi` property: `None` when `pm2_5_atm` is `None`, else
`calculate_aqi` of it. -/
def Sensor.us_epa_pm2_5_aqi (now : ℚ) (s : Sensor) : Option ℚ :=
  (s.pm2_5_atm now).map calculate_aqi

/-- A concrete payload used to instantiate the TTL theorems: captured at
time 1000 (seconds). -/
def examplePayload : Payload :=
  { data_time_stamp := 1000, latitude := 1, longitude := 2, altitude := 3,
    temperature := 50, humidity := 40, pressure := 1013, pm2_5_atm := 10 }

/-- A concrete sensor holding `examplePayload` with a 10-minute TTL. -/
def exampleSensor : Sensor :=
  { name := "sensor1", id := 1, _data_dict := some examplePayload,
    sensor_ttl_min := 10 }

/-! ### LED policy (`Led` in `led.py`) -/

/-- An RGB triple. -/
abbrev RGB := ℤ × ℤ × ℤ

/-- The mutable `Led` state relevant to `set_rgb`: strip length, the
`use_half` flag and the private alternating parity bit `__do_odd`. -/
structure LedState where
  number_of_leds : ℕ
  use_half : Bool
  do_odd : ℕ
deriving DecidableEq

/-- Method `Led.set_rgb`: the list of pixel values written (index order) and the
updated state.  Pixel `idx` receives `rgb` when `idx % 2 == 0 + __do_odd` or
`use_half` is disabled, else `(0, 0, 0)`; afterwards `__do_odd` flips. -/
def set_rgb (st : LedState) (rgb : RGB) : List RGB × LedState :=
  ((List.range st.number_of_leds).map
      (fun idx => if idx % 2 = st.do_odd ∨ st.use_half = false then rgb else (0, 0, 0)),
   { st with do_odd := if st.do_odd = 1 then 0 else 1 })

/-- Method `Led.set_light`, selection part: scan the `levels` table in list order and
return the RGB of the first entry whose threshold strictly exceeds the AQI;
`none` means no entry matched, so `set_rgb` is never called and the strip is
left unchanged. -/
def selectColor (levels : List (ℤ × String × RGB)) (aqi : ℚ) : Option RGB :=
  (levels.find? (fun lv => decide (aqi < (lv.1 : ℚ)))).map (fun lv => lv.2.2)

/-- The two-level table used in the specification's `select_color` example. -/
def demoLevels : List (ℤ × String × RGB) :=
  [(50, "good", (0, 255, 0)), (100, "moderate", (255, 255, 0))]

/-! ### Main poll loop failure handling (`main` in `cli.py`)

One iteration of the `while True:` loop is abstracted by its externally
visible outcome.  A `failure` outcome is an uncaught exception escaping the
cycle; per the transport/fetch failure model these arise from
`update_sensor_data`, which runs before any LED write of the cycle, so a
failing cycle leaves the strip as the previous cycle left it.  The `except`
handler then increments `unhealthy`, breaks out of the loop when it reaches
3, and otherwise runs `working_light(20)`, which ends by turning the strip
off.  A `success` outcome runs the LED update (leaving the strip in some
state summarised by one boolean) and resets `unhealthy` to 0.  `interrupt`
is `KeyboardInterrupt`: turn the strip off and break. -/

/-- Externally visible outcome of one cycle of the main loop. -/
inductive CycleOutcome where
  | success (strip_off_after : Bool)
  | failure
  | interrupt
deriving DecidableEq

/-- The main-loop state: the `unhealthy` counter, whether the strip is
currently dark, and whether the loop is still running. -/
structure LoopState where
  unhealthy : ℕ
  strip_off : Bool
  running : Bool
deriving DecidableEq

/-- State when entering the loop: counter 0, strip off (the boot
`working_light(3)` ends with `off()`), loop running. -/
def initState : LoopState :=
  { unhealthy := 0, strip_off := true, running := true }

/-- One iteration of the main loop of `cli.py`. -/
def loopStep (st : LoopState) (c : CycleOutcome) : LoopState :=
  if st.running = false then st
  else
    match c with
    | .success strip_off_after =>
        { st with unhealthy := 0, strip_off := strip_off_after }
    | .failure =>
        if st.unhealthy + 1 = 3 then
          { st with unhealthy := st.unhealthy + 1, running := false }
        else
          { st with unhealthy := st.unhealthy + 1, strip_off := true }
    | .interrupt => { st with strip_off := true, running := false }

/-- Run the main loop from the initial state over a list of cycle outcomes. -/
def runLoop (cs : List CycleOutcome) : LoopState := cs.foldl loopStep initState

/-! ## Theorems -/

/-- C3: `calculate_aqi` selects the first band, checked from the top down,
whose lower bound `pm` strictly exceeds, and applies that band's own linear
remap; `pm > 500` returns exactly `500`; `pm ≤ 0` is returned unchanged; and
the band endpoints map exactly: `0→0`, `12→50`, `35.5→100`, `55.5→150`,
`150.5→200`, `250.5→300`, `350.5→400`, `500.5→500`. -/
theorem calculate_aqi_bands (pm : ℚ) :
    (pm > 500 → calculate_aqi pm = 500) ∧
    (pm > 350.5 → pm ≤ 500 → calculate_aqi pm = remap pm 350.5 500.5 400 500) ∧
    (pm > 250.5 → pm ≤ 350.5 → calculate_aqi pm = remap pm 250.5 350.5 300 400) ∧
    (pm > 150.5 → pm ≤ 250.5 → calculate_aqi pm = remap pm 150.5 250.5 200 300) ∧
    (pm > 55.5 → pm ≤ 150.5 → calculate_aqi pm = remap pm 55.5 150.5 150 200) ∧
    (pm > 35.5 → pm ≤ 55.5 → calculate_aqi pm = remap pm 35.5 55.5 100 150) ∧
    (pm > 12 → pm ≤ 35.5 → calculate_aqi pm = remap pm 12 35.5 50 100) ∧
    (pm > 0 → pm ≤ 12 → calculate_aqi pm = remap pm 0 12 0 50) ∧
    (pm ≤ 0 → calculate_aqi pm = pm) ∧
    calculate_aqi 0 = 0 ∧ calculate_aqi 12 = 50 ∧ calculate_aqi 35.5 = 100 ∧
    calculate_aqi 55.5 = 150 ∧ calculate_aqi 150.5 = 200 ∧
    calculate_aqi 250.5 = 300 ∧ calculate_aqi 350.5 = 400 ∧
    calculate_aqi 500.5 = 500 := by
  refine ⟨fun h₁ => ?_, fun h₁ h₂ => ?_, fun h₁ h₂ => ?_, fun h₁ h₂ => ?_,
    fun h₁ h₂ => ?_, fun h₁ h₂ => ?_, fun h₁ h₂ => ?_, fun h₁ h₂ => ?_,
    fun h₁ => ?_, ?_, ?_, ?_, ?_, ?_, ?_, ?_, ?_⟩ <;>
    simp only [calculate_aqi]
  · rw [if_pos h₁]
  · rw [if_neg (by linarith), if_pos h₁]
  · rw [if_neg (by linarith), if_neg (by linarith), if_pos h₁]
  · rw [if_neg (by linarith), if_neg (by linarith), if_neg (by linarith), if_pos h₁]
  · rw [if_neg (by linarith), if_neg (by linarith), if_neg (by linarith),
      if_neg (by linarith), if_pos h₁]
  · rw [if_neg (by linarith), if_neg (by linarith), if_neg (by linarith),
      if_neg (by linarith), if_neg (by linarith), if_pos h₁]
  · rw [if_neg (by linarith), if_neg (by linarith), if_neg (by linarith),
      if_neg (by linarith), if_neg (by linarith), if_neg (by linarith), if_pos h₁]
  · rw [if_neg (by linarith), if_neg (by linarith), if_neg (by linarith),
      if_neg (by linarith), if_neg (by linarith), if_neg (by linarith),
      if_neg (by linarith), if_pos h₁]
  · rw [if_neg (by linarith), if_neg (by linarith), if_neg (by linarith),
      if_neg (by linarith), if_neg (by linarith), if_neg (by linarith),
      if_neg (by linarith), if_neg (by linarith)]
  · norm_num [remap]
  · norm_num [remap]
  · norm_num [remap]
  · norm_num [remap]
  · norm_num [remap]
  · norm_num [remap]
  · norm_num [remap]
  · norm_num [remap]

/-- Concrete instantiation of `calculate_aqi_bands`. -/
theorem calculate_aqi_bands_witness :
    calculate_aqi 600 = 500 ∧ calculate_aqi 20 = remap 20 12 35.5 50 100 ∧
    calculate_aqi (-3) = -3 :=
  ⟨(calculate_aqi_bands 600).1 (by norm_num),
   (calculate_aqi_bands 20).2.2.2.2.2.2.1 (by norm_num) (by norm_num),
   (calculate_aqi_bands (-3)).2.2.2.2.2.2.2.2.1 (by norm_num)⟩

/-! ### Basic facts about the sorting and summary statistics -/

theorem sortList_perm (l : List ℚ) : List.Perm (sortList l) l :=
  List.perm_insertionSort _ l

theorem sortList_sorted (l : List ℚ) : List.Sorted (· ≤ ·) (sortList l) :=
  List.sorted_insertionSort _ l

theorem sortList_length (l : List ℚ) : (sortList l).length = l.length :=
  (sortList_perm l).length_eq

theorem sortList_mem {l : List ℚ} {x : ℚ} (h : x ∈ sortList l) : x ∈ l :=
  (sortList_perm l).mem_iff.mp h

theorem medianSorted_pair (a b : ℚ) : medianSorted [a, b] = (a + b) / 2 := by
  simp [medianSorted]

theorem medianSorted_triple (a b c : ℚ) : medianSorted [a, b, c] = b := by
  simp [medianSorted]

theorem consensus_eq_median {values : List ℚ} (h₂ : 2 ≤ values.length)
    (h₃ : values.length ≤ 3) : calculate_consensus values = npMedian values := by
  have hne : values ≠ [] := by
    intro h; rw [h] at h₂; simp at h₂
  have hone : values.length ≠ 1 := by omega
  simp only [calculate_consensus, if_neg hne, if_neg hone, if_pos h₃]

theorem consensus_eq_iqrMethod {values : List ℚ} (h₄ : 4 ≤ values.length)
    (h₆ : values.length ≤ 6) : calculate_consensus values = iqrMethod values := by
  have hne : values ≠ [] := by
    intro h; rw [h] at h₄; simp at h₄
  have hone : values.length ≠ 1 := by omega
  have h₃ : ¬values.length ≤ 3 := by omega
  simp only [calculate_consensus, if_neg hne, if_neg hone, if_neg h₃, if_pos h₆]

theorem consensus_eq_modifiedZ {values : List ℚ} (h₇ : 7 ≤ values.length) :
    calculate_consensus values = modifiedZMethod values := by
  have hne : values ≠ [] := by
    intro h; rw [h] at h₇; simp at h₇
  have hone : values.length ≠ 1 := by omega
  have h₃ : ¬values.length ≤ 3 := by omega
  have h₆ : ¬values.length ≤ 6 := by omega
  simp only [calculate_consensus, if_neg hne, if_neg hone, if_neg h₃, if_neg h₆]

/-- C1: `calculate_consensus` returns 0 on the empty list, the value itself on
a one-element list, the median (middle value, or average of the two middle
values for length 2) for lengths 2–3, the IQR method for lengths 4–6 and the
modified Z-score method for length 7 or more. -/
theorem calculate_consensus_dispatch (values : List ℚ) :
    (values = [] → calculate_consensus values = 0) ∧
    (∀ v : ℚ, values = [v] → calculate_consensus values = v) ∧
    (2 ≤ values.length → values.length ≤ 3 →
      calculate_consensus values = npMedian values) ∧
    (∀ a b : ℚ, sortList values = [a, b] → calculate_consensus values = (a + b) / 2) ∧
    (∀ a b c : ℚ, sortList values = [a, b, c] → calculate_consensus values = b) ∧
    (4 ≤ values.length → values.length ≤ 6 →
      calculate_consensus values = iqrMethod values) ∧
    (7 ≤ values.length → calculate_consensus values = modifiedZMethod values) := by
  refine ⟨fun h => ?_, fun v h => ?_, fun h₂ h₃ => consensus_eq_median h₂ h₃,
    fun a b h => ?_, fun a b c h => ?_,
    fun h₄ h₆ => consensus_eq_iqrMethod h₄ h₆, fun h₇ => consensus_eq_modifiedZ h₇⟩
  · rw [h]; rfl
  · rw [h]; simp [calculate_consensus]
  · have hlen : values.length = 2 := by
      rw [← sortList_length, h]; rfl
    rw [consensus_eq_median (by omega) (by omega), npMedian, h, medianSorted_pair]
  · have hlen : values.length = 3 := by
      rw [← sortList_length, h]; rfl
    rw [consensus_eq_median (by omega) (by omega), npMedian, h, medianSorted_triple]

/-- Concrete instantiation of `calculate_consensus_dispatch`. -/
theorem calculate_consensus_dispatch_witness :
    calculate_consensus [] = 0 ∧ calculate_consensus [5] = 5 ∧
    calculate_consensus [2, 1] = 3 / 2 ∧ calculate_consensus [3, 1, 2] = 2 := by
  refine ⟨(calculate_consensus_dispatch []).1 rfl,
    (calculate_consensus_dispatch [5]).2.1 5 rfl,
    ?_, ?_⟩
  · have h : sortList [2, 1] = [1, 2] := by
      norm_num [sortList, List.insertionSort, List.orderedInsert]
    rw [(calculate_consensus_dispatch [2, 1]).2.2.2.1 1 2 h]; norm_num
  · have h : sortList [3, 1, 2] = [1, 2, 3] := by
      norm_num [sortList, List.insertionSort, List.orderedInsert]
    exact (calculate_consensus_dispatch [3, 1, 2]).2.2.2.2.1 1 2 3 h

/-! ### Percentile evaluation on sorted lists of length 4, 5 and 6 -/

theorem floor_three_quarters : ⌊(3 : ℚ) / 4⌋ = 0 := by
  rw [Int.floor_eq_iff] <;> norm_num

theorem floor_nine_quarters : ⌊(9 : ℚ) / 4⌋ = 2 := by
  rw [Int.floor_eq_iff] <;> norm_num

theorem floor_five_quarters : ⌊(5 : ℚ) / 4⌋ = 1 := by
  rw [Int.floor_eq_iff] <;> norm_num

theorem floor_fifteen_quarters : ⌊(15 : ℚ) / 4⌋ = 3 := by
  rw [Int.floor_eq_iff] <;> norm_num

theorem percentileSorted_four_q1 (a b c d : ℚ) :
    percentileSorted [a, b, c, d] 25 = a + 3 / 4 * (b - a) := by
  have hpos : (25 : ℚ) * ((([a, b, c, d] : List ℚ).length : ℚ) - 1) / 100 = 3 / 4 := by
    norm_num
  simp only [percentileSorted, hpos, floor_three_quarters, Int.toNat_zero, List.getD]
  norm_num

theorem percentileSorted_four_q3 (a b c d : ℚ) :
    percentileSorted [a, b, c, d] 75 = c + 1 / 4 * (d - c) := by
  have hpos : (75 : ℚ) * ((([a, b, c, d] : List ℚ).length : ℚ) - 1) / 100 = 9 / 4 := by
    norm_num
  have ht : (2 : ℤ).toNat = 2 := rfl
  simp only [percentileSorted, hpos, floor_nine_quarters, ht, List.getD]
  norm_num

theorem percentileSorted_five_q1 (a b c d e : ℚ) :
    percentileSorted [a, b, c, d, e] 25 = b := by
  have hpos : (25 : ℚ) * ((([a, b, c, d, e] : List ℚ).length : ℚ) - 1) / 100 = 1 := by
    norm_num
  simp only [percentileSorted, hpos, Int.floor_one, List.getD]
  norm_num

theorem percentileSorted_five_q3 (a b c d e : ℚ) :
    percentileSorted [a, b, c, d, e] 75 = d := by
  have hpos : (75 : ℚ) * ((([a, b, c, d, e] : List ℚ).length : ℚ) - 1) / 100 = 3 := by
    norm_num
  have hfl : ⌊(3 : ℚ)⌋ = 3 := by rw [Int.floor_eq_iff] <;> norm_num
  have ht : (3 : ℤ).toNat = 3 := rfl
  simp only [percentileSorted, hpos, hfl, ht, List.getD]
  norm_num

theorem percentileSorted_six_q1 (a b c d e f : ℚ) :
    percentileSorted [a, b, c, d, e, f] 25 = b + 1 / 4 * (c - b) := by
  have hpos : (25 : ℚ) * ((([a, b, c, d, e, f] : List ℚ).length : ℚ) - 1) / 100 = 5 / 4 := by
    norm_num
  simp only [percentileSorted, hpos, floor_five_quarters, Int.toNat_one, List.getD]
  norm_num

theorem percentileSorted_six_q3 (a b c d e f : ℚ) :
    percentileSorted [a, b, c, d, e, f] 75 = d + 3 / 4 * (e - d) := by
  have hpos : (75 : ℚ) * ((([a, b, c, d, e, f] : List ℚ).length : ℚ) - 1) / 100 = 15 / 4 := by
    norm_num
  have ht : (3 : ℤ).toNat = 3 := rfl
  simp only [percentileSorted, hpos, floor_fifteen_quarters, ht, List.getD]
  norm_num

/-! ### The IQR inlier band always keeps a middle order statistic -/

theorem exists_list_four {α : Type} {s : List α} (h : s.length = 4) :
    ∃ a b c d, s = [a, b, c, d] := by
  rcases s with _ | ⟨a, _ | ⟨b, _ | ⟨c, _ | ⟨d, _ | ⟨e, t⟩⟩⟩⟩⟩ <;> simp_all

theorem exists_list_five {α : Type} {s : List α} (h : s.length = 5) :
    ∃ a b c d e, s = [a, b, c, d, e] := by
  rcases s with _ | ⟨a, _ | ⟨b, _ | ⟨c, _ | ⟨d, _ | ⟨e, _ | ⟨f, t⟩⟩⟩⟩⟩⟩ <;> simp_all

theorem exists_list_six {α : Type} {s : List α} (h : s.length = 6) :
    ∃ a b c d e f, s = [a, b, c, d, e, f] := by
  rcases s with _ | ⟨a, _ | ⟨b, _ | ⟨c, _ | ⟨d, _ | ⟨e, _ | ⟨f, _ | ⟨g, t⟩⟩⟩⟩⟩⟩⟩ <;> simp_all

/-- On the IQR path (length 4–6) some input value lies between the first and
third quartile. -/
theorem iqr_exists_mid (values : List ℚ) (h₄ : 4 ≤ values.length)
    (h₆ : values.length ≤ 6) :
    ∃ x ∈ values, npPercentile values 25 ≤ x ∧ x ≤ npPercentile values 75 := by
  have hsort := sortList_sorted values
  have hlen := sortList_length values
  have hcase : values.length = 4 ∨ values.length = 5 ∨ values.length = 6 := by omega
  rcases hcase with h | h | h
  · obtain ⟨a, b, c, d, hs⟩ := exists_list_four (s := sortList values) (by omega)
    rw [hs] at hsort
    simp only [List.sorted_cons, List.mem_cons] at hsort
    have hab : a ≤ b := hsort.1 b (Or.inl rfl)
    have hbc : b ≤ c := hsort.2.1 c (Or.inl rfl)
    have hcd : c ≤ d := hsort.2.2.1 d (Or.inl rfl)
    refine ⟨b, sortList_mem (by rw [hs]; simp), ?_, ?_⟩ <;>
      rw [npPercentile, hs]
    · rw [percentileSorted_four_q1]
      linarith
    · rw [percentileSorted_four_q3]
      linarith
  · obtain ⟨a, b, c, d, e, hs⟩ := exists_list_five (s := sortList values) (by omega)
    rw [hs] at hsort
    simp only [List.sorted_cons, List.mem_cons] at hsort
    have hbc : b ≤ c := hsort.2.1 c (Or.inl rfl)
    have hcd : c ≤ d := hsort.2.2.1 d (Or.inl rfl)
    refine ⟨c, sortList_mem (by rw [hs]; simp), ?_, ?_⟩ <;>
      rw [npPercentile, hs]
    · rw [percentileSorted_five_q1]
      exact hbc
    · rw [percentileSorted_five_q3]
      exact hcd
  · obtain ⟨a, b, c, d, e, f, hs⟩ := exists_list_six (s := sortList values) (by omega)
    rw [hs] at hsort
    simp only [List.sorted_cons, List.mem_cons] at hsort
    have hbc : b ≤ c := hsort.2.1 c (Or.inl rfl)
    have hcd : c ≤ d := hsort.2.2.1 d (Or.inl rfl)
    have hde : d ≤ e := hsort.2.2.2.1 e (Or.inl rfl)
    refine ⟨c, sortList_mem (by rw [hs]; simp), ?_, ?_⟩ <;>
      rw [npPercentile, hs]
    · rw [percentileSorted_six_q1]
      linarith
    · rw [percentileSorted_six_q3]
      linarith

/-- On the IQR path the quartiles are ordered, so the band is at least
`[Q1, Q3]` wide. -/
theorem iqr_band_superset (values : List ℚ) (h₄ : 4 ≤ values.length)
    (h₆ : values.length ≤ 6) :
    ∀ x : ℚ, npPercentile values 25 ≤ x → x ≤ npPercentile values 75 →
      iqrLowerBound values ≤ x ∧ x ≤ iqrUpperBound values := by
  obtain ⟨y, _, hy₁, hy₂⟩ := iqr_exists_mid values h₄ h₆
  have hq : npPercentile values 25 ≤ npPercentile values 75 := le_trans hy₁ hy₂
  intro x hx₁ hx₂
  rw [iqrLowerBound, iqrUpperBound]
  constructor <;> nlinarith

/-- On the IQR path the inlier list is never empty. -/
theorem iqrInliers_ne_nil (values : List ℚ) (h₄ : 4 ≤ values.length)
    (h₆ : values.length ≤ 6) : iqrInliers values ≠ [] := by
  obtain ⟨x, hx, hx₁, hx₂⟩ := iqr_exists_mid values h₄ h₆
  obtain ⟨hb₁, hb₂⟩ := iqr_band_superset values h₄ h₆ x hx₁ hx₂
  apply List.ne_nil_of_mem (a := x)
  rw [iqrInliers, List.mem_filter]
  exact ⟨hx, by simp only [decide_eq_true_eq]; exact ⟨hb₁, hb₂⟩⟩

/-! ### The modified Z-score mask always keeps a minimum-deviation value -/

theorem sorted_getD_le {s : List ℚ} (hs : List.Sorted (· ≤ ·) s) {i j : ℕ}
    (hij : i ≤ j) (hj : j < s.length) : s.getD i 0 ≤ s.getD j 0 := by
  rw [List.getD_eq_getElem _ _ (lt_of_le_of_lt hij hj), List.getD_eq_getElem _ _ hj]
  have h := hs.rel_get_of_le (a := ⟨i, lt_of_le_of_lt hij hj⟩) (b := ⟨j, hj⟩) hij
  simpa [List.get_eq_getElem] using h

theorem head_le_medianSorted {s : List ℚ} (hs : List.Sorted (· ≤ ·) s)
    (hne : s ≠ []) : s.getD 0 0 ≤ medianSorted s := by
  have hlen : 0 < s.length := List.length_pos.mpr hne
  rw [medianSorted]
  split_ifs with h
  · exact sorted_getD_le hs (Nat.zero_le _) (by omega)
  · have h₁ := sorted_getD_le hs (Nat.zero_le (s.length / 2 - 1)) (j := s.length / 2 - 1)
      (by omega)
    have h₂ := sorted_getD_le hs (Nat.zero_le (s.length / 2)) (j := s.length / 2)
      (by omega)
    linarith

/-- Some element of a nonempty list is at or below the list's `np.median`. -/
theorem exists_le_npMedian (l : List ℚ) (hne : l ≠ []) :
    ∃ x ∈ l, x ≤ npMedian l := by
  have hsne : sortList l ≠ [] := by
    intro h
    apply hne
    have hl := sortList_length l
    rw [h] at hl
    exact List.length_eq_zero.mp hl.symm
  have hpos : 0 < (sortList l).length := List.length_pos.mpr hsne
  refine ⟨(sortList l).getD 0 0, ?_, head_le_medianSorted (sortList_sorted l) hsne⟩
  apply sortList_mem
  rw [List.getD_eq_getElem _ _ hpos]
  exact List.getElem_mem _

/-- Model of `np.median`: on a list of nonnegative values is nonnegative. -/
theorem npMedian_nonneg {l : List ℚ} (h : ∀ x ∈ l, 0 ≤ x) : 0 ≤ npMedian l := by
  have hg : ∀ k : ℕ, 0 ≤ (sortList l).getD k 0 := by
    intro k
    by_cases hk : k < (sortList l).length
    · rw [List.getD_eq_getElem _ _ hk]
      exact h _ (sortList_mem (List.getElem_mem _))
    · rw [List.getD_eq_default _ _ (le_of_not_lt hk)]
  rw [npMedian, medianSorted]
  split_ifs
  · exact hg _
  · have h₁ := hg ((sortList l).length / 2 - 1)
    have h₂ := hg ((sortList l).length / 2)
    linarith

theorem npMad_nonneg (l : List ℚ) : 0 ≤ npMad l := by
  apply npMedian_nonneg
  intro x hx
  rw [List.mem_map] at hx
  obtain ⟨y, _, rfl⟩ := hx
  exact abs_nonneg _

/-- Some value's absolute deviation from the median is at most the MAD. -/
theorem exists_dev_le_mad (l : List ℚ) (hne : l ≠ []) :
    ∃ x ∈ l, |x - npMedian l| ≤ npMad l := by
  obtain ⟨d, hd, hdle⟩ :=
    exists_le_npMedian (l.map fun x => |x - npMedian l|) (by simpa using hne)
  rw [List.mem_map] at hd
  obtain ⟨x, hx, rfl⟩ := hd
  exact ⟨x, hx, hdle⟩

/-- On the modified Z-score path with nonzero MAD, the minimum-deviation value
scores at most `0.6745` in absolute value, so the inlier list is nonempty. -/
theorem modZ_exists_small_score (l : List ℚ) (hne : l ≠ [])
    (hmad : npMad l ≠ 0) :
    (∃ x ∈ l, |modZScore l x| ≤ 0.6745) ∧ modZInliers l ≠ [] := by
  have hpos : 0 < npMad l := lt_of_le_of_ne (npMad_nonneg l) (Ne.symm hmad)
  obtain ⟨x, hx, hdev⟩ := exists_dev_le_mad l hne
  have hscore : |modZScore l x| ≤ 0.6745 := by
    rw [modZScore, abs_div, abs_mul, abs_of_pos hpos,
      abs_of_pos (show (0 : ℚ) < 0.6745 by norm_num), div_le_iff hpos]
    nlinarith
  refine ⟨⟨x, hx, hscore⟩, ?_⟩
  apply List.ne_nil_of_mem (a := x)
  rw [modZInliers, List.mem_filter]
  refine ⟨hx, ?_⟩
  simp only [decide_eq_true_eq]
  calc |modZScore l x| ≤ 0.6745 := hscore
    _ < 3.5 := by norm_num

/-! ### Evaluation of the specification's two consensus examples -/

theorem sort_ex1 : sortList [10, 10, 10, 100] = [10, 10, 10, 100] := by
  norm_num [sortList, List.insertionSort, List.orderedInsert]

theorem q1_ex1 : npPercentile [10, 10, 10, 100] 25 = 10 := by
  rw [npPercentile, sort_ex1, percentileSorted_four_q1]; norm_num

theorem q3_ex1 : npPercentile [10, 10, 10, 100] 75 = 65 / 2 := by
  rw [npPercentile, sort_ex1, percentileSorted_four_q3]; norm_num

theorem lb_ex1 : iqrLowerBound [10, 10, 10, 100] = -95 / 4 := by
  rw [iqrLowerBound, q1_ex1, q3_ex1]; norm_num

theorem ub_ex1 : iqrUpperBound [10, 10, 10, 100] = 265 / 4 := by
  rw [iqrUpperBound, q1_ex1, q3_ex1]; norm_num

/-- In the spec's IQR example the outlier 100 is excluded from the band. -/
theorem inliers_ex1 : iqrInliers [10, 10, 10, 100] = [10, 10, 10] := by
  rw [iqrInliers]
  simp only [lb_ex1, ub_ex1]
  norm_num [List.filter]

theorem consensus_ex1 : calculate_consensus [10, 10, 10, 100] = 10 := by
  rw [consensus_eq_iqrMethod (by norm_num) (by norm_num), iqrMethod,
    consensusFromInliers, inliers_ex1, if_neg (by simp)]
  norm_num [npMean, List.sum]

theorem sort_ex2 :
    sortList [50, 51, 49, 50, 52, 48, 400] = [48, 49, 50, 50, 51, 52, 400] := by
  norm_num [sortList, List.insertionSort, List.orderedInsert]

theorem median_ex2 : npMedian [50, 51, 49, 50, 52, 48, 400] = 50 := by
  rw [npMedian, sort_ex2]
  simp [medianSorted, List.getD]

theorem mad_ex2 : npMad [50, 51, 49, 50, 52, 48, 400] = 1 := by
  rw [npMad]
  have hdevs : ([50, 51, 49, 50, 52, 48, 400] : List ℚ).map
      (fun x => |x - npMedian [50, 51, 49, 50, 52, 48, 400]|) =
      [0, 1, 1, 0, 2, 2, 350] := by
    simp only [median_ex2]
    norm_num [List.map, abs, max_def]
  rw [hdevs, npMedian]
  have hsort : sortList [0, 1, 1, 0, 2, 2, 350] = [0, 0, 1, 1, 2, 2, 350] := by
    norm_num [sortList, List.insertionSort, List.orderedInsert]
  rw [hsort]
  simp [medianSorted, List.getD]

/-- In the spec's modified Z-score example the outlier 400 is excluded. -/
theorem inliers_ex2 :
    modZInliers [50, 51, 49, 50, 52, 48, 400] = [50, 51, 49, 50, 52, 48] := by
  rw [modZInliers]
  simp only [modZScore, median_ex2, mad_ex2]
  norm_num [List.filter, abs, max_def]

theorem consensus_ex2 : calculate_consensus [50, 51, 49, 50, 52, 48, 400] = 50 := by
  rw [consensus_eq_modifiedZ (by norm_num), modifiedZMethod,
    if_neg (by rw [mad_ex2]; norm_num), consensusFromInliers, inliers_ex2,
    if_neg (by simp)]
  norm_num [npMean, List.sum]

/-- C2: on the IQR path (length 4–6) the consensus is the mean of the values
inside `[Q1 − 1.5·IQR, Q3 + 1.5·IQR]`; on the modified Z-score path (length
≥ 7) it is the median when the MAD is 0 and otherwise the mean of the values
with `|0.6745·(x − M)/D| < 3.5`; in particular `[10,10,10,100]` yields 10
(100 excluded) and in `[50,51,49,50,52,48,400]` the value 400 is excluded
from the mean. -/
theorem calculate_consensus_outlier_methods (values : List ℚ) :
    (4 ≤ values.length → values.length ≤ 6 →
      calculate_consensus values = npMean (iqrInliers values)) ∧
    (7 ≤ values.length → npMad values = 0 →
      calculate_consensus values = npMedian values) ∧
    (7 ≤ values.length → npMad values ≠ 0 →
      calculate_consensus values = npMean (modZInliers values)) ∧
    calculate_consensus [10, 10, 10, 100] = 10 ∧
    modZInliers [50, 51, 49, 50, 52, 48, 400] = [50, 51, 49, 50, 52, 48] ∧
    calculate_consensus [50, 51, 49, 50, 52, 48, 400] = 50 := by
  refine ⟨fun h₄ h₆ => ?_, fun h₇ hmad => ?_, fun h₇ hmad => ?_,
    consensus_ex1, inliers_ex2, consensus_ex2⟩
  · rw [consensus_eq_iqrMethod h₄ h₆, iqrMethod, consensusFromInliers,
      if_neg (iqrInliers_ne_nil values h₄ h₆)]
  · rw [consensus_eq_modifiedZ h₇, modifiedZMethod, if_pos hmad]
  · have hne : values ≠ [] := by
      intro h; rw [h] at h₇; simp at h₇
    rw [consensus_eq_modifiedZ h₇, modifiedZMethod, if_neg hmad,
      consensusFromInliers, if_neg (modZ_exists_small_score values hne hmad).2]

/-- Concrete instantiation of `calculate_consensus_outlier_methods`. -/
theorem calculate_consensus_outlier_methods_witness :
    calculate_consensus [10, 10, 10, 100] = npMean (iqrInliers [10, 10, 10, 100]) ∧
    calculate_consensus [50, 51, 49, 50, 52, 48, 400] =
      npMean (modZInliers [50, 51, 49, 50, 52, 48, 400]) ∧
    calculate_consensus [1, 1, 1, 1, 1, 1, 1] = npMedian [1, 1, 1, 1, 1, 1, 1] := by
  refine ⟨(calculate_consensus_outlier_methods [10, 10, 10, 100]).1
      (by norm_num) (by norm_num),
    (calculate_consensus_outlier_methods [50, 51, 49, 50, 52, 48, 400]).2.2.1
      (by norm_num) (by rw [mad_ex2]; norm_num),
    (calculate_consensus_outlier_methods [1, 1, 1, 1, 1, 1, 1]).2.1
      (by norm_num) ?_⟩
  rw [npMad]
  have hdevs : ([1, 1, 1, 1, 1, 1, 1] : List ℚ).map
      (fun x => |x - npMedian [1, 1, 1, 1, 1, 1, 1]|) = [0, 0, 0, 0, 0, 0, 0] := by
    have hmed : npMedian [1, 1, 1, 1, 1, 1, 1] = 1 := by
      rw [npMedian]
      have : sortList [1, 1, 1, 1, 1, 1, 1] = [1, 1, 1, 1, 1, 1, 1] := by
        norm_num [sortList, List.insertionSort, List.orderedInsert]
      rw [this]
      simp [medianSorted, List.getD]
    simp only [hmed]
    norm_num [List.map, abs, max_def]
  rw [hdevs, npMedian]
  have : sortList [0, 0, 0, 0, 0, 0, 0] = [0, 0, 0, 0, 0, 0, 0] := by
    norm_num [sortList, List.insertionSort, List.orderedInsert]
  rw [this]
  simp [medianSorted, List.getD]

/-- C10: the all-outlier median fallback of `calculate_consensus` is
unreachable.  On the IQR path every value between Q1 and Q3 lies inside the
inlier band and such a value exists, so the inlier list is nonempty; on the
modified Z-score path with nonzero MAD the minimum-deviation value has
absolute score at most 0.6745 < 3.5.  Hence both outlier branches reduce to
the mean of a nonempty inlier list and never take the fallback. -/
theorem consensus_fallback_unreachable (values : List ℚ) :
    (4 ≤ values.length → values.length ≤ 6 →
      (∀ x : ℚ, npPercentile values 25 ≤ x → x ≤ npPercentile values 75 →
        iqrLowerBound values ≤ x ∧ x ≤ iqrUpperBound values) ∧
      iqrInliers values ≠ [] ∧
      iqrMethod values = npMean (iqrInliers values)) ∧
    (7 ≤ values.length → npMad values ≠ 0 →
      (∃ x ∈ values, |modZScore values x| ≤ 0.6745) ∧
      modZInliers values ≠ [] ∧
      modifiedZMethod values = npMean (modZInliers values)) := by
  constructor
  · intro h₄ h₆
    refine ⟨iqr_band_superset values h₄ h₆, iqrInliers_ne_nil values h₄ h₆, ?_⟩
    rw [iqrMethod, consensusFromInliers, if_neg (iqrInliers_ne_nil values h₄ h₆)]
  · intro h₇ hmad
    have hne : values ≠ [] := by
      intro h; rw [h] at h₇; simp at h₇
    obtain ⟨hex, hnil⟩ := modZ_exists_small_score values hne hmad
    refine ⟨hex, hnil, ?_⟩
    rw [modifiedZMethod, if_neg hmad, consensusFromInliers, if_neg hnil]

/-- Concrete instantiation of `consensus_fallback_unreachable`. -/
theorem consensus_fallback_unreachable_witness :
    (iqrInliers [10, 10, 10, 100] ≠ [] ∧
      iqrMethod [10, 10, 10, 100] = npMean (iqrInliers [10, 10, 10, 100])) ∧
    (modZInliers [50, 51, 49, 50, 52, 48, 400] ≠ [] ∧
      modifiedZMethod [50, 51, 49, 50, 52, 48, 400] =
        npMean (modZInliers [50, 51, 49, 50, 52, 48, 400])) := by
  have h₁ := (consensus_fallback_unreachable [10, 10, 10, 100]).1
    (by norm_num) (by norm_num)
  have h₂ := (consensus_fallback_unreachable [50, 51, 49, 50, 52, 48, 400]).2
    (by norm_num) (by rw [mad_ex2]; norm_num)
  exact ⟨⟨h₁.2.1, h₁.2.2⟩, ⟨h₂.2.1, h₂.2.2⟩⟩

/-- C4: `calculate_consensus` is a total function on lists of rationals, and
in the shared finishing step of both outlier branches an all-outlier
classification (empty inlier list) yields the plain median of all values
rather than the mean of an empty list. -/
theorem calculate_consensus_total_and_fallback :
    (∀ values : List ℚ, ∃ r : ℚ, calculate_consensus values = r) ∧
    (∀ values inliers : List ℚ, inliers = [] →
      consensusFromInliers values inliers = npMedian values) := by
  refine ⟨fun values => ⟨_, rfl⟩, fun values inliers h => ?_⟩
  rw [consensusFromInliers, if_pos h]

/-- Concrete instantiation of `calculate_consensus_total_and_fallback`. -/
theorem calculate_consensus_total_and_fallback_witness :
    (∃ r : ℚ, calculate_consensus [1, 2, 3, 4] = r) ∧
    consensusFromInliers [1, 2, 3, 4] [] = npMedian [1, 2, 3, 4] :=
  ⟨calculate_consensus_total_and_fallback.1 [1, 2, 3, 4],
   calculate_consensus_total_and_fallback.2 [1, 2, 3, 4] [] rfl⟩

/-! ### Permutation invariance of the consensus -/

theorem sortList_eq_of_perm {l₁ l₂ : List ℚ} (h : List.Perm l₁ l₂) :
    sortList l₁ = sortList l₂ :=
  List.eq_of_perm_of_sorted
    ((sortList_perm l₁).trans (h.trans (sortList_perm l₂).symm))
    (sortList_sorted l₁) (sortList_sorted l₂)

theorem npMedian_congr {l₁ l₂ : List ℚ} (h : List.Perm l₁ l₂) :
    npMedian l₁ = npMedian l₂ := by
  rw [npMedian, npMedian, sortList_eq_of_perm h]

theorem npPercentile_congr {l₁ l₂ : List ℚ} (h : List.Perm l₁ l₂) (q : ℚ) :
    npPercentile l₁ q = npPercentile l₂ q := by
  rw [npPercentile, npPercentile, sortList_eq_of_perm h]

theorem npMean_congr {l₁ l₂ : List ℚ} (h : List.Perm l₁ l₂) :
    npMean l₁ = npMean l₂ := by
  rw [npMean, npMean, h.sum_eq, h.length_eq]

theorem npMad_congr {l₁ l₂ : List ℚ} (h : List.Perm l₁ l₂) :
    npMad l₁ = npMad l₂ := by
  rw [npMad, npMad]
  simp only [npMedian_congr h]
  exact npMedian_congr (h.map _)

theorem iqrInliers_perm {l₁ l₂ : List ℚ} (h : List.Perm l₁ l₂) :
    List.Perm (iqrInliers l₁) (iqrInliers l₂) := by
  rw [iqrInliers, iqrInliers]
  have hf : (fun x => decide (iqrLowerBound l₁ ≤ x ∧ x ≤ iqrUpperBound l₁)) =
      (fun x => decide (iqrLowerBound l₂ ≤ x ∧ x ≤ iqrUpperBound l₂)) := by
    funext x
    rw [iqrLowerBound, iqrLowerBound, iqrUpperBound, iqrUpperBound,
      npPercentile_congr h 25, npPercentile_congr h 75]
  rw [hf]
  exact h.filter _

theorem modZInliers_perm {l₁ l₂ : List ℚ} (h : List.Perm l₁ l₂) :
    List.Perm (modZInliers l₁) (modZInliers l₂) := by
  rw [modZInliers, modZInliers]
  have hf : (fun x => decide (|modZScore l₁ x| < 3.5)) =
      (fun x => decide (|modZScore l₂ x| < 3.5)) := by
    funext x
    rw [modZScore, modZScore, npMedian_congr h, npMad_congr h]
  rw [hf]
  exact h.filter _

theorem consensusFromInliers_congr {l₁ l₂ i₁ i₂ : List ℚ}
    (h : List.Perm l₁ l₂) (hi : List.Perm i₁ i₂) :
    consensusFromInliers l₁ i₁ = consensusFromInliers l₂ i₂ := by
  rw [consensusFromInliers, consensusFromInliers]
  by_cases hn : i₁ = []
  · have hn₂ : i₂ = [] := by
      subst hn
      exact hi.symm.eq_nil
    rw [if_pos hn, if_pos hn₂, npMedian_congr h]
  · have hn₂ : i₂ ≠ [] := by
      intro hc
      subst hc
      exact hn hi.eq_nil
    rw [if_neg hn, if_neg hn₂, npMean_congr hi]

/-- C5: `calculate_consensus` is invariant under permutation of its input:
reordering the input values never changes the result. -/
theorem calculate_consensus_perm_invariant (l₁ l₂ : List ℚ)
    (h : List.Perm l₁ l₂) :
    calculate_consensus l₁ = calculate_consensus l₂ := by
  by_cases h0 : l₁ = []
  · subst h0
    rw [h.symm.eq_nil]
  · have hlen := h.length_eq
    have h0' : l₂ ≠ [] := fun hc => h0 ((hc ▸ h).eq_nil)
    by_cases h1 : l₁.length = 1
    · obtain ⟨v, rfl⟩ := List.length_eq_one.mp h1
      rw [List.singleton_perm.mp h]
    · have h1' : ¬l₂.length = 1 := by omega
      rw [calculate_consensus, calculate_consensus, if_neg h0, if_neg h0',
        if_neg h1, if_neg h1']
      by_cases h₃ : l₁.length ≤ 3
      · have h₃' : l₂.length ≤ 3 := by omega
        rw [if_pos h₃, if_pos h₃']
        exact npMedian_congr h
      · have h₃' : ¬l₂.length ≤ 3 := by omega
        rw [if_neg h₃, if_neg h₃']
        by_cases h₆ : l₁.length ≤ 6
        · have h₆' : l₂.length ≤ 6 := by omega
          rw [if_pos h₆, if_pos h₆', iqrMethod, iqrMethod]
          exact consensusFromInliers_congr h (iqrInliers_perm h)
        · have h₆' : ¬l₂.length ≤ 6 := by omega
          rw [if_neg h₆, if_neg h₆']
          simp only [modifiedZMethod]
          rw [npMad_congr h, npMedian_congr h]
          split_ifs
          · rfl
          · exact consensusFromInliers_congr h (modZInliers_perm h)

/-- Concrete instantiation of `calculate_consensus_perm_invariant`. -/
theorem calculate_consensus_perm_invariant_witness :
    calculate_consensus [1, 2] = calculate_consensus [2, 1] :=
  calculate_consensus_perm_invariant [1, 2] [2, 1] (List.Perm.swap 2 1 [])

/-! ### Sensor TTL behaviour -/

/-- C6 counterexample: at time 1700 the payload of `exampleSensor` (captured
at 1000, TTL 10 minutes = 600 seconds) is expired — the metric accessors
report absent — yet the `data_time_stamp` accessor still returns the stored
capture timestamp 1000, not its no-data outcome (the epoch, 0).  So not
every accessor treats an expired payload as absent. -/
theorem sensor_ttl_counterexample :
    1700 - exampleSensor.data_time_stamp > (exampleSensor.sensor_ttl_min : ℚ) * 60 ∧
    Sensor.temperature 1700 exampleSensor = none ∧
    Sensor.pm2_5_atm 1700 exampleSensor = none ∧
    exampleSensor.data_time_stamp = 1000 ∧
    exampleSensor.data_time_stamp ≠ 0 := by
  have hexp : Sensor.ttl_expired 1700 exampleSensor =
      { exampleSensor with _data_dict := none } := by
    rw [Sensor.ttl_expired, if_pos]
    norm_num [Sensor.data_time_stamp, exampleSensor, examplePayload]
  refine ⟨by norm_num [Sensor.data_time_stamp, exampleSensor, examplePayload],
    ?_, ?_, by norm_num [Sensor.data_time_stamp, exampleSensor, examplePayload],
    by norm_num [Sensor.data_time_stamp, exampleSensor, examplePayload]⟩
  · rw [Sensor.temperature, hexp]; rfl
  · rw [Sensor.pm2_5_atm, hexp]; rfl

/-- C6 amended: a payload more than `sensor_ttl_min` minutes old at the moment
of access is treated as absent by the metric accessors `location`,
`temperature`, `humidity`, `pressure`, `pm2_5_atm` and `us_epa_pm2_5_aqi`
(but not by `data_time_stamp`, which returns the stored capture timestamp
whether or not it is expired); a payload read within the TTL yields its
derived metrics. -/
theorem sensor_ttl_amended (now : ℚ) (s : Sensor) (p : Payload)
    (hp : s._data_dict = some p) :
    (now - p.data_time_stamp > (s.sensor_ttl_min : ℚ) * 60 →
      Sensor.location now s = (0, 0, 0) ∧
      Sensor.temperature now s = none ∧
      Sensor.humidity now s = none ∧
      Sensor.pressure now s = none ∧
      Sensor.pm2_5_atm now s = none ∧
      Sensor.us_epa_pm2_5_aqi now s = none ∧
      s.data_time_stamp = p.data_time_stamp) ∧
    (¬(now - p.data_time_stamp > (s.sensor_ttl_min : ℚ) * 60) →
      Sensor.location now s = (p.latitude, p.longitude, p.altitude) ∧
      Sensor.temperature now s = some ((p.temperature - 32) * 5 / 9) ∧
      Sensor.humidity now s = some p.humidity ∧
      Sensor.pressure now s = some p.pressure ∧
      Sensor.pm2_5_atm now s = some p.pm2_5_atm ∧
      Sensor.us_epa_pm2_5_aqi now s = some (calculate_aqi p.pm2_5_atm)) := by
  have hts : s.data_time_stamp = p.data_time_stamp := by
    rw [Sensor.data_time_stamp, hp]
  constructor
  · intro h
    have hexp : Sensor.ttl_expired now s = { s with _data_dict := none } := by
      rw [Sensor.ttl_expired, hts, if_pos h]
    refine ⟨?_, ?_, ?_, ?_, ?_, ?_, hts⟩
    · rw [Sensor.location, hexp]
    · rw [Sensor.temperature, hexp]; rfl
    · rw [Sensor.humidity, hexp]; rfl
    · rw [Sensor.pressure, hexp]; rfl
    · rw [Sensor.pm2_5_atm, hexp]; rfl
    · rw [Sensor.us_epa_pm2_5_aqi, Sensor.pm2_5_atm, hexp]; rfl
  · intro h
    have hfresh : Sensor.ttl_expired now s = s := by
      rw [Sensor.ttl_expired, hts, if_neg h]
    have hpm : Sensor.pm2_5_atm now s = some p.pm2_5_atm := by
      rw [Sensor.pm2_5_atm, hfresh, hp]; rfl
    refine ⟨?_, ?_, ?_, ?_, hpm, ?_⟩
    · rw [Sensor.location, hfresh, hp]
    · rw [Sensor.temperature, hfresh, hp]; rfl
    · rw [Sensor.humidity, hfresh, hp]; rfl
    · rw [Sensor.pressure, hfresh, hp]; rfl
    · rw [Sensor.us_epa_pm2_5_aqi, hpm]; rfl

/-- Concrete instantiation of `sensor_ttl_amended`. -/
theorem sensor_ttl_amended_witness :
    Sensor.temperature 1700 exampleSensor = none ∧
    Sensor.location 1700 exampleSensor = (0, 0, 0) ∧
    Sensor.pm2_5_atm 1001 exampleSensor = some 10 ∧
    Sensor.us_epa_pm2_5_aqi 1001 exampleSensor = some (calculate_aqi 10) := by
  have h₁ := (sensor_ttl_amended 1700 exampleSensor examplePayload rfl).1
    (by norm_num [examplePayload, exampleSensor])
  have h₂ := (sensor_ttl_amended 1001 exampleSensor examplePayload rfl).2
    (by norm_num [examplePayload, exampleSensor])
  exact ⟨h₁.2.1, h₁.1, h₂.2.2.2.2.1, h₂.2.2.2.2.2⟩

/-! ### LED color selection -/

theorem selectColor_cons_pos (e : ℤ × String × RGB) (t : List (ℤ × String × RGB))
    (aqi : ℚ) (h : aqi < (e.1 : ℚ)) : selectColor (e :: t) aqi = some e.2.2 := by
  rw [selectColor, List.find?_cons_of_pos _ (by simpa using h)]
  rfl

theorem selectColor_cons_neg (e : ℤ × String × RGB) (t : List (ℤ × String × RGB))
    (aqi : ℚ) (h : ¬aqi < (e.1 : ℚ)) : selectColor (e :: t) aqi = selectColor t aqi := by
  rw [selectColor, List.find?_cons_of_neg _ (by simpa using h), selectColor]

/-- C7: `set_light` scans the threshold table in order and renders the RGB of
the first entry whose threshold strictly exceeds the AQI; when the AQI is at
or above every threshold, no entry is selected, `set_rgb` is never called and
the strip is left unchanged; on the two-level demo table, AQI 40 selects
green, 75 selects yellow and 150 matches nothing. -/
theorem set_light_selection (aqi : ℚ) (pre post : List (ℤ × String × RGB))
    (lv : ℤ × String × RGB) :
    (∀ levels : List (ℤ × String × RGB),
      (∀ e ∈ levels, (e.1 : ℚ) ≤ aqi) → selectColor levels aqi = none) ∧
    ((∀ e ∈ pre, (e.1 : ℚ) ≤ aqi) → aqi < (lv.1 : ℚ) →
      selectColor (pre ++ lv :: post) aqi = some lv.2.2) ∧
    selectColor demoLevels 40 = some (0, 255, 0) ∧
    selectColor demoLevels 75 = some (255, 255, 0) ∧
    selectColor demoLevels 150 = none := by
  have hnone : ∀ levels : List (ℤ × String × RGB),
      (∀ e ∈ levels, (e.1 : ℚ) ≤ aqi) → selectColor levels aqi = none := by
    intro levels
    induction levels with
    | nil => intro _; rfl
    | cons e t ih =>
        intro h
        rw [selectColor_cons_neg e t aqi (not_lt.mpr (h e (List.mem_cons_self e t)))]
        exact ih fun x hx => h x (List.mem_cons_of_mem e hx)
  refine ⟨hnone, ?_, ?_, ?_, ?_⟩
  · intro hpre hlv
    induction pre with
    | nil => exact selectColor_cons_pos lv post aqi hlv
    | cons e t ih =>
        rw [List.cons_append,
          selectColor_cons_neg e _ aqi (not_lt.mpr (hpre e (List.mem_cons_self e t)))]
        exact ih fun x hx => hpre x (List.mem_cons_of_mem e hx)
  · rw [demoLevels, selectColor_cons_pos _ _ _ (by norm_num)]
  · rw [demoLevels, selectColor_cons_neg _ _ _ (by norm_num),
      selectColor_cons_pos _ _ _ (by norm_num)]
  · rw [demoLevels, selectColor_cons_neg _ _ _ (by norm_num),
      selectColor_cons_neg _ _ _ (by norm_num)]
    rfl

/-- Concrete instantiation of `set_light_selection`. -/
theorem set_light_selection_witness :
    selectColor demoLevels 150 = none ∧
    selectColor ([] ++ (50, "good", ((0 : ℤ), (255 : ℤ), (0 : ℤ))) ::
      [(100, "moderate", ((255 : ℤ), (255 : ℤ), (0 : ℤ)))]) 40 = some (0, 255, 0) := by
  refine ⟨(set_light_selection 150 [] [] (0, "", (0, 0, 0))).1 demoLevels ?_,
    (set_light_selection 40 []
      [(100, "moderate", (255, 255, 0))] (50, "good", (0, 255, 0))).2.1
      (by simp) (by norm_num)⟩
  intro e he
  simp only [demoLevels, List.mem_cons, List.not_mem_nil, or_false] at he
  rcases he with h | h
  · rw [h]; norm_num
  · rw [h]; norm_num

/-! ### LED rendering parity -/

/-- C8: with `use_half` disabled two successive `set_rgb` calls with the same
`rgb` write `rgb` to every pixel both times; with `use_half` enabled each call
writes `rgb` to the pixels of one index parity and `(0,0,0)` to the other,
and the stored parity bit flips on every call (independently of the input),
so two successive calls produce complementary patterns. -/
theorem set_rgb_parity (st : LedState) (rgb : RGB) (h : st.do_odd ≤ 1) :
    (st.use_half = false →
      (set_rgb st rgb).1 = List.replicate st.number_of_leds rgb ∧
      (set_rgb (set_rgb st rgb).2 rgb).1 = List.replicate st.number_of_leds rgb) ∧
    (st.use_half = true →
      (set_rgb st rgb).1 = (List.range st.number_of_leds).map
        (fun idx => if idx % 2 = st.do_odd then rgb else (0, 0, 0)) ∧
      (set_rgb (set_rgb st rgb).2 rgb).1 = (List.range st.number_of_leds).map
        (fun idx => if idx % 2 = st.do_odd then (0, 0, 0) else rgb)) ∧
    (set_rgb st rgb).2.do_odd = 1 - st.do_odd ∧
    (set_rgb st rgb).2.use_half = st.use_half ∧
    (set_rgb st rgb).2.number_of_leds = st.number_of_leds := by
  have hall : ∀ (st' : LedState), st'.use_half = false →
      (set_rgb st' rgb).1 = List.replicate st'.number_of_leds rgb := by
    intro st' hu
    rw [set_rgb]
    rw [List.eq_replicate_iff]
    constructor
    · rw [List.length_map, List.length_range]
    · intro b hb
      rw [List.mem_map] at hb
      obtain ⟨i, _, hib⟩ := hb
      rw [← hib, if_pos (Or.inr hu)]
  refine ⟨fun hu => ⟨hall st hu, hall _ (by rw [set_rgb]; exact hu)⟩,
    fun hu => ⟨?_, ?_⟩, ?_, rfl, rfl⟩
  · rw [set_rgb]
    apply List.map_congr_left
    intro i _
    rw [hu]
    simp only [Bool.true_eq_false, or_false]
  · rw [set_rgb, set_rgb]
    apply List.map_congr_left
    intro i _
    simp only [hu, Bool.true_eq_false, or_false]
    have h2 : i % 2 = 0 ∨ i % 2 = 1 := by omega
    have hodd : st.do_odd = 0 ∨ st.do_odd = 1 := by omega
    rcases hodd with h0 | h0 <;> rw [h0] <;> rcases h2 with h2 | h2 <;>
      simp [h2]
  · rw [set_rgb]
    have hodd : st.do_odd = 0 ∨ st.do_odd = 1 := by omega
    rcases hodd with h0 | h0 <;> rw [h0] <;> simp

/-- Concrete instantiation of `set_rgb_parity`. -/
theorem set_rgb_parity_witness :
    (set_rgb ⟨4, true, 0⟩ (10, 20, 30)).1 = (List.range 4).map
      (fun idx => if idx % 2 = 0 then ((10 : ℤ), (20 : ℤ), (30 : ℤ)) else (0, 0, 0)) ∧
    (set_rgb (set_rgb ⟨4, true, 0⟩ (10, 20, 30)).2 (10, 20, 30)).1 =
      (List.range 4).map
      (fun idx => if idx % 2 = 0 then ((0 : ℤ), (0 : ℤ), (0 : ℤ)) else (10, 20, 30)) ∧
    (set_rgb ⟨4, true, 0⟩ (10, 20, 30)).2.do_odd = 1 := by
  have h := set_rgb_parity ⟨4, true, 0⟩ (10, 20, 30) (by norm_num)
  exact ⟨(h.2.1 rfl).1, (h.2.1 rfl).2, h.2.2.1⟩

/-! ### Main loop failure counting -/

theorem foldl_loopStep_invariant (cs : List CycleOutcome) (st : LoopState)
    (h : st.unhealthy ≤ 3 ∧ (1 ≤ st.unhealthy → st.strip_off = true) ∧
      (st.unhealthy = 3 → st.running = false)) :
    (cs.foldl loopStep st).unhealthy ≤ 3 ∧
    (1 ≤ (cs.foldl loopStep st).unhealthy →
      (cs.foldl loopStep st).strip_off = true) ∧
    ((cs.foldl loopStep st).unhealthy = 3 →
      (cs.foldl loopStep st).running = false) := by
  induction cs generalizing st with
  | nil => exact h
  | cons c t ih =>
      rw [List.foldl_cons]
      apply ih
      rw [loopStep.eq_def]
      by_cases hr : st.running = false
      · rw [if_pos hr]
        exact h
      · rw [if_neg hr]
        have hu3 : st.unhealthy ≠ 3 := fun hc => hr (h.2.2 hc)
        have h1 := h.1
        cases c with
        | success b =>
            dsimp only
            exact ⟨by omega, fun hc => absurd hc (by omega),
              fun hc => absurd hc (by omega)⟩
        | failure =>
            dsimp only
            split_ifs with h3
            · exact ⟨by dsimp only; omega, fun _ => h.2.1 (by omega), fun _ => rfl⟩
            · exact ⟨by dsimp only; omega, fun _ => rfl, fun hc => absurd hc h3⟩
        | interrupt =>
            dsimp only
            exact ⟨h.1, fun _ => rfl, fun _ => rfl⟩

/-- C9: in the main loop the `unhealthy` counter increments by one on every
failing cycle and resets to zero on every successful cycle; starting from the
initial state it never exceeds three, and whenever it reaches three the loop
has terminated with the strip dark. -/
theorem main_loop_failure_policy (st : LoopState) (b : Bool)
    (cs : List CycleOutcome) :
    (st.running = true → (loopStep st .failure).unhealthy = st.unhealthy + 1) ∧
    (st.running = true → (loopStep st (.success b)).unhealthy = 0) ∧
    (runLoop cs).unhealthy ≤ 3 ∧
    ((runLoop cs).unhealthy = 3 →
      (runLoop cs).running = false ∧ (runLoop cs).strip_off = true) := by
  simp only [runLoop]
  have hinv := foldl_loopStep_invariant cs initState
    ⟨by norm_num [initState], by intro h; simp [initState] at h, by
      intro h; simp [initState] at h⟩
  refine ⟨fun hr => ?_, fun hr => ?_, hinv.1, ?_⟩
  · rw [loopStep.eq_def, if_neg (by rw [hr]; simp)]
    dsimp only
    split_ifs <;> rfl
  · rw [loopStep.eq_def, if_neg (by rw [hr]; simp)]
  · intro h3
    exact ⟨hinv.2.2 h3, hinv.2.1 (by omega)⟩

/-- Concrete instantiation of `main_loop_failure_policy`: three consecutive
failing cycles stop the loop with the counter at three and the strip off. -/
theorem main_loop_failure_policy_witness :
    (loopStep initState .failure).unhealthy = initState.unhealthy + 1 ∧
    (loopStep initState (.success true)).unhealthy = 0 ∧
    (runLoop [.failure, .failure, .failure]).unhealthy = 3 ∧
    (runLoop [.failure, .failure, .failure]).running = false ∧
    (runLoop [.failure, .failure, .failure]).strip_off = true := by
  have h := main_loop_failure_policy initState true [.failure, .failure, .failure]
  have h3 : (runLoop [.failure, .failure, .failure]).unhealthy = 3 := by decide
  exact ⟨h.1 rfl, h.2.1 rfl, h3, (h.2.2.2 h3).1, (h.2.2.2 h3).2⟩

end AirQual
